import Mathlib

/-!
Verification of the diveharder-wrapper library core: enum decoding,
major-order task value projection, completion rules, planet identity,
per-instance resolution caching, game-clock reconciliation and HDML
markup conversion.  Every definition is a shallow embedding of the
corresponding Python code in `src/diveharder`.
-/

/-- Python runtime errors raised by the decoding paths of
`diveharder/objects.py`: `ValueError` from enum conversion,
`IndexError` from `task["valueTypes"][j]`, and the `TypeError` raised
by `len(None)` at `MajorOrder.from_json` line 978. -/
inductive PyError where
  | valueError
  | indexError
  | typeErrorLenOfNone
deriving DecidableEq, Repr

/-- `Faction` enum from `diveharder/enums.py` (members 0..4). -/
inductive Faction where
  | ANY
  | HUMANS
  | TERMINIDS
  | AUTOMATON
  | ILLUMINATE
deriving DecidableEq, Repr

/-- `BetterEnum.parse` specialised to `Faction`: `cls(value)` returns the
member with that value, and the `except ValueError` branch returns `None`. -/
def Faction.parse (v : Int) : Option Faction :=
  if v = 0 then some .ANY
  else if v = 1 then some .HUMANS
  else if v = 2 then some .TERMINIDS
  else if v = 3 then some .AUTOMATON
  else if v = 4 then some .ILLUMINATE
  else none

/-- `ValueTypes` enum from `diveharder/enums.py`:
RACE=1, UNKNOWN=2, GOAL=3, LIBERATE=11, PLANET_INDEX=12. -/
inductive ValueTypes where
  | RACE
  | UNKNOWN
  | GOAL
  | LIBERATE
  | PLANET_INDEX
deriving DecidableEq, Repr

/-- The tag decoding inside `MajorOrder.from_json` (objects.py:966-969):
`ValueTypes(code)` with the `except ValueError` branch substituting
`ValueTypes.UNKNOWN` for unrecognised codes. -/
def parseValueType (v : Int) : ValueTypes :=
  if v = 1 then .RACE
  else if v = 2 then .UNKNOWN
  else if v = 3 then .GOAL
  else if v = 11 then .LIBERATE
  else if v = 12 then .PLANET_INDEX
  else .UNKNOWN

/-- `MajorOrderTypes` enum from `diveharder/enums.py`:
ERADICATE=3, LIBERATION=11, DEFENSE=12, CONTROL=13. -/
inductive MajorOrderTypes where
  | ERADICATE
  | LIBERATION
  | DEFENSE
  | CONTROL
deriving DecidableEq, Repr

/-- `MajorOrderTypes(type)` as called in `MajorOrderTask.__init__`
(objects.py:702): a plain enum conversion which raises `ValueError` on an
unrecognised code (no `parse` fallback is used there). -/
def MajorOrderTypes.convert (v : Int) : Except PyError MajorOrderTypes :=
  if v = 3 then .ok .ERADICATE
  else if v = 11 then .ok .LIBERATION
  else if v = 12 then .ok .DEFENSE
  else if v = 13 then .ok .CONTROL
  else .error .valueError

/-- The `vals` dictionary built by the loop in `MajorOrder.from_json`
(objects.py:963-976).  Keys are the five `ValueTypes` members; the
PLANET_INDEX key accumulates a list, every other key holds the last
written scalar. -/
structure TaskAcc where
  race : Option Int
  unknown : Option Int
  goal : Option Int
  liberate : Option Int
  planet : Option (List Int)
deriving DecidableEq, Repr

/-- The empty `vals = {}` dictionary. -/
def TaskAcc.empty : TaskAcc :=
  { race := none, unknown := none, goal := none, liberate := none, planet := none }

/-- One iteration of the `for j, value in enumerate(task["values"])` loop
body (objects.py:965-976): decode the tag, then either append to the
PLANET_INDEX list (creating it on first occurrence) or overwrite the
scalar slot for the tag. -/
def taskStep (acc : TaskAcc) (v : Int) (t : Int) : TaskAcc :=
  match parseValueType t with
  | .PLANET_INDEX => { acc with planet := some (acc.planet.getD [] ++ [v]) }
  | .RACE => { acc with race := some v }
  | .UNKNOWN => { acc with unknown := some v }
  | .GOAL => { acc with goal := some v }
  | .LIBERATE => { acc with liberate := some v }

/-- The whole `enumerate(task["values"])` loop: `values` is walked in
order while `task["valueTypes"][j]` is read positionally; if `valueTypes`
runs out first Python raises `IndexError`, and entries of `valueTypes`
beyond `len(values)` are never read. -/
def projectLoop : List Int → List Int → TaskAcc → Except PyError TaskAcc
  | [], _, acc => .ok acc
  | _ :: _, [], _ => .error .indexError
  | v :: vs, t :: ts, acc => projectLoop vs ts (taskStep acc v t)

/-- The projected task values after the single-element collapse.  The
`planet` field is a scalar (`Sum.inl`) when the accumulated list had
exactly one element and the list itself (`Sum.inr`) otherwise. -/
structure TaskVals where
  race : Option Int
  unknown : Option Int
  goal : Option Int
  liberate : Option Int
  planet : Sum Int (List Int)
deriving DecidableEq, Repr

/-- The post-loop collapse (objects.py:978-979):
`len(vals.get(ValueTypes.PLANET_INDEX))` raises `TypeError` when no
PLANET_INDEX tag was seen (`len(None)`); a one-element list is replaced
by its element. -/
def finalizeTask (acc : TaskAcc) : Except PyError TaskVals :=
  match acc.planet with
  | none => .error .typeErrorLenOfNone
  | some l =>
      .ok { race := acc.race, unknown := acc.unknown, goal := acc.goal,
            liberate := acc.liberate,
            planet := match l with
              | [x] => Sum.inl x
              | _ => Sum.inr l }

/-- The full per-task value projection of `MajorOrder.from_json`
(objects.py:963-979): run the accumulation loop on an initially empty
`vals`, then apply the collapse. -/
def projectTaskValues (values : List Int) (types : List Int) : Except PyError TaskVals :=
  match projectLoop values types TaskAcc.empty with
  | .error e => .error e
  | .ok acc => finalizeTask acc

/-- Construction of one `MajorOrderTask` inside the `from_json` loop
(objects.py:963-980): the value projection runs first, then
`MajorOrderTask.__init__` converts the raw task type. -/
def buildTask (ty : Int) (values : List Int) (types : List Int) :
    Except PyError (MajorOrderTypes × TaskVals) := do
  let vals ← projectTaskValues values types
  let t ← MajorOrderTypes.convert ty
  pure (t, vals)

/-- The `for task in json["setting"]["tasks"]` loop of
`MajorOrder.from_json`: each raw task is (type, values, valueTypes); the
first raised exception aborts the construction of the whole MajorOrder. -/
def buildTasks : List (Int × List Int × List Int) →
    Except PyError (List (MajorOrderTypes × TaskVals))
  | [] => .ok []
  | t :: ts => do
      let x ← buildTask t.1 t.2.1 t.2.2
      let xs ← buildTasks ts
      pure (x :: xs)

/-- The values of the (value, rawType) pairs whose decoded tag is `tag`,
in order of occurrence. -/
def tagOccurrences (tag : ValueTypes) (pairs : List (Int × Int)) : List Int :=
  pairs.filterMap fun vt =>
    if parseValueType vt.2 = tag then some vt.1 else none

/-- All values carrying the PLANET_INDEX tag, in order: the contents of
the accumulated `vals[ValueTypes.PLANET_INDEX]` list. -/
def planetOccurrences (values : List Int) (types : List Int) : List Int :=
  tagOccurrences .PLANET_INDEX (values.zip types)

/-- The value written last into a scalar tag slot, if any occurrence of
the tag exists: the last-write-wins result for non-planet tags. -/
def lastOccurrence (tag : ValueTypes) (values : List Int) (types : List Int) : Option Int :=
  (tagOccurrences tag (values.zip types)).getLast?

/-- `MajorOrderProgress.is_complete` (objects.py:810-822) applied to the
progress entry `p` of a task: Control/Defense/Liberation tasks are
complete iff `p == 1`; Eradicate tasks iff `p == task.values.get(GOAL)`
(false when the GOAL slot is absent, since an int never equals None). -/
def task_is_complete (ty : MajorOrderTypes) (goal : Option Int) (p : Int) : Bool :=
  match ty with
  | .CONTROL => p == 1
  | .DEFENSE => p == 1
  | .LIBERATION => p == 1
  | .ERADICATE =>
      match goal with
      | some g => p == g
      | none => false

/-- `MajorOrderProgress.completed` (objects.py:827-835):
`all(i.completed for i in self.tasks)` where task `i` reads
`progress[tasks.index(i)]`, i.e. its own position.  `all` short-circuits
on the first incomplete task (`some false`); if a still-complete prefix
exhausts `progress`, `progress[i]` raises `IndexError` (`none`).
A task is the pair of its type and its GOAL slot. -/
def completed : List (MajorOrderTypes × Option Int) → List Int → Option Bool
  | [], _ => some true
  | _ :: _, [] => none
  | t :: ts, p :: ps =>
      if task_is_complete t.1 t.2 p then completed ts ps else some false

/-- `Assignment.is_complete` from `diveharder/models.py` (lines 112-114):
`self.progress == [1] * len(self.tasks)`. -/
def assignment_is_complete (progress : List Int) (tasksLen : Nat) : Bool :=
  progress == List.replicate tasksLen 1

/-- A `Planet` instance's identity and descriptive fields
(objects.py:1233-1260); only `id` participates in `__eq__`. -/
structure Planet where
  id : Int
  name : String
deriving DecidableEq, Repr

/-- `Planet.__eq__` (objects.py:1398-1400) on two Planet operands:
`isinstance(value, Planet) and self.id + 1 == value.id`. -/
def Planet.eq (a b : Planet) : Bool :=
  a.id + 1 == b.id

/-- The per-instance `_cache` dictionary of a `Planet`
(objects.py:1260): one slot per deferred reference; a missing key and a
stored `None` are both `none` (`dict.get` returns `None` for both). -/
structure PlanetCache (A B C : Type) where
  planet_info : Option A
  status : Option B
  campaign : Option C
deriving DecidableEq, Repr

/-- The results the API client would currently return for this planet's
three deferred lookups (`war_info.get_planet_info`,
`status.get_planet_status`, `campaigns.get_campaign_by_planet`); each
lookup may return `None`. -/
structure ResolutionClient (A B C : Type) where
  planet_info_result : Option A
  status_result : Option B
  campaign_result : Option C

/-- The `Planet.planet_info` property (objects.py:1271-1282): if the
cache slot reads `None`, perform the lookup, store its result and return
it; otherwise return the cached object.  The `Nat` counts underlying
lookups performed by this access (0 or 1). -/
def planet_info_access (cl : ResolutionClient A B C) (c : PlanetCache A B C) :
    Option A × PlanetCache A B C × Nat :=
  match c.planet_info with
  | some v => (some v, c, 0)
  | none => (cl.planet_info_result, { c with planet_info := cl.planet_info_result }, 1)

/-- The `Planet.status` property (objects.py:1334-1347), same caching
shape as `planet_info`. -/
def status_access (cl : ResolutionClient A B C) (c : PlanetCache A B C) :
    Option B × PlanetCache A B C × Nat :=
  match c.status with
  | some v => (some v, c, 0)
  | none => (cl.status_result, { c with status := cl.status_result }, 1)

/-- The `Planet.campaign` property (objects.py:1349-1362), same caching
shape as `planet_info`. -/
def campaign_access (cl : ResolutionClient A B C) (c : PlanetCache A B C) :
    Option C × PlanetCache A B C × Nat :=
  match c.campaign with
  | some v => (some v, c, 0)
  | none => (cl.campaign_result, { c with campaign := cl.campaign_result }, 1)

/-- `Planet.refresh` (objects.py:1262-1269): it only evaluates
`self.client.planets.get_planet(self.id)` and returns that freshly
constructed instance (whose `_cache` starts as `{}`); `self._cache` is
not touched.  Result: (this instance's cache after the call, the
returned fresh instance's cache). -/
def refresh (_cl : ResolutionClient A B C) (c : PlanetCache A B C) :
    PlanetCache A B C × PlanetCache A B C :=
  (c, { planet_info := none, status := none, campaign := none })

/-- The state backing a `fix_timestamp` call: the war start epoch and
the game-clock reading the status fetch would currently return (`none`
when the status fetch fails).

Modelled from the spec: `DiveHarderApiClient.fix_timestamp` is called at
objects.py:611 and objects.py:939 but the `DiveHarderApiClient` class is
not under `src/`; per spec section 4.2 the reconciler adds the relative
offset to the live game clock plus the war start epoch, re-fetching the
clock on every call, and fails when the status fetch fails. -/
structure GameClockEnv where
  warStartEpoch : Int
  gameTime : Option Int
deriving DecidableEq, Repr

/-- Modelled from the spec: the game-clock reconciler
`fix_timestamp(relative_seconds)` (spec sections 4.2 and 6), absent
from `src/`.  A fresh status fetch supplies the clock; failure of that
fetch fails the conversion. -/
def fix_timestamp (env : GameClockEnv) (relative : Int) : Option Int :=
  match env.gameTime with
  | none => none
  | some t => some (env.warStartEpoch + t + relative)

/-- Position one past the first `>` in the list, provided no newline
occurs before it: the lazy part of the regex `<.*?>` used by
`HDMLString.as_plaintext` (`.` does not match a newline, and the lazy
quantifier stops at the first `>`). -/
def gtPos : List Char → Option Nat
  | [] => none
  | c :: rest =>
      if c = '>' then some 1
      else if c = '\n' then none
      else (gtPos rest).map (· + 1)

/-- `HDMLString.as_plaintext` (objects.py:115-123):
`re.sub(r"<.*?>", "", text)`.  Scanning left to right, a `<` followed by
a `>` on the same line is deleted together with everything between them;
a `<` with no closing `>` before the end of line is kept verbatim. -/
def as_plaintext (s : List Char) : List Char :=
  match s with
  | [] => []
  | c :: rest =>
      if c = '<' then
        match gtPos rest with
        | some n => as_plaintext (rest.drop n)
        | none => c :: as_plaintext rest
      else c :: as_plaintext rest
termination_by s.length
decreasing_by
  all_goals simp only [List.length_cons, List.length_drop]
  all_goals omega

/-- Length consumed by the tail of the regex `</?i(?:=\d+)?>` after the
leading `</i` or `<i` has matched: greedily try `=` digits `>`, fall
back to a bare `>`. -/
def iTagTailLen (r : List Char) : Option Nat :=
  match r with
  | '=' :: r2 =>
      let ds := r2.takeWhile Char.isDigit
      if ds.isEmpty then none
      else
        match r2.drop ds.length with
        | '>' :: _ => some (1 + ds.length + 1)
        | _ => none
  | '>' :: _ => some 1
  | _ => none

/-- Length of a match of `</?i(?:=\d+)?>` at the head of the list, the
pattern of the final `re.sub` in `hdml_to_md` (utils.py:33). -/
def iTagLen (s : List Char) : Option Nat :=
  match s with
  | '<' :: '/' :: 'i' :: r => (iTagTailLen r).map (· + 3)
  | '<' :: 'i' :: r => (iTagTailLen r).map (· + 2)
  | _ => none

/-- `re.sub(r"<\/?i(?:=\d+)?>", "", modified_text)` (utils.py:33):
delete every match of the `i`-tag pattern, scanning left to right. -/
def stripITags (s : List Char) : List Char :=
  match s with
  | [] => []
  | c :: rest =>
      match iTagLen (c :: rest) with
      | some n => stripITags (rest.drop (n - 1))
      | none => c :: stripITags rest
termination_by s.length
decreasing_by
  all_goals simp only [List.length_cons, List.length_drop]
  all_goals omega

/-- A match of the opening `<i=(\d+)>` of the `hdml_to_md` pattern at
the head of the list: the captured digit group and the length consumed. -/
def iOpenMatch (s : List Char) : Option (List Char × Nat) :=
  match s with
  | '<' :: 'i' :: '=' :: rest =>
      let ds := rest.takeWhile Char.isDigit
      if ds.isEmpty then none
      else
        match rest.drop ds.length with
        | '>' :: _ => some (ds, 3 + ds.length + 1)
        | _ => none
  | _ => none

/-- Length of a match of the closing `<\/i(?:=\1)?>` at the head of the
list, for the digit group `digits`: greedily try `</i=digits>`, fall
back to `</i>`. -/
def iCloseLen (digits : List Char) (s : List Char) : Option Nat :=
  match s with
  | '<' :: '/' :: 'i' :: r =>
      if ('=' :: digits ++ ['>']).isPrefixOf r then some (3 + 1 + digits.length + 1)
      else
        match r with
        | '>' :: _ => some 4
        | _ => none
  | _ => none

/-- The lazy `(.*?)` scan of the `hdml_to_md` pattern: starting right
after the opening tag, at each position first try the closing tag, else
consume one non-newline character into the captured content.  Returns
the captured content and the total length consumed including the closing
tag. -/
def scanContent (digits : List Char) (acc : List Char) (s : List Char) :
    Option (List Char × Nat) :=
  match iCloseLen digits s with
  | some n => some (acc.reverse, n)
  | none =>
    match s with
    | [] => none
    | ch :: tl =>
        if ch = '\n' then none
        else (scanContent digits (ch :: acc) tl).map fun r => (r.1, r.2 + 1)

/-- `re.findall(r"<i=(\d+)>(.*?)<\/i(?:=\1)?>", text)` (utils.py:21-22):
the list of (digit group, content group) for every non-overlapping
leftmost match, scanning positions left to right. -/
def findIMatches (s : List Char) : List (List Char × List Char) :=
  match s with
  | [] => []
  | c :: rest =>
      match iOpenMatch (c :: rest) with
      | some (digits, openLen) =>
          match scanContent digits [] ((c :: rest).drop openLen) with
          | some (content, consumed) =>
              (digits, content) :: findIMatches (rest.drop (openLen + consumed - 1))
          | none => findIMatches rest
      | none => findIMatches rest
termination_by s.length
decreasing_by
  all_goals simp only [List.length_cons, List.length_drop]
  all_goals omega

/-- `str.replace` with a non-empty pattern: scan left to right, replace
every occurrence, continue after the inserted replacement. -/
def replaceAllGo (pat repl : List Char) (s : List Char) : List Char :=
  match s with
  | [] => []
  | c :: tl =>
      if !pat.isEmpty && pat.isPrefixOf (c :: tl) then
        repl ++ replaceAllGo pat repl (tl.drop (pat.length - 1))
      else
        c :: replaceAllGo pat repl tl
termination_by s.length
decreasing_by
  all_goals simp only [List.length_cons, List.length_drop]
  all_goals omega

/-- Python `s.replace(pat, repl)`: for an empty pattern the replacement
is inserted before every character and at the end, otherwise every
occurrence is replaced left to right. -/
def replaceAll (s pat repl : List Char) : List Char :=
  if pat.isEmpty then repl ++ s.foldr (fun c acc => c :: (repl ++ acc)) []
  else replaceAllGo pat repl s

/-- One iteration of the `for match in matches` loop of `hdml_to_md`
(utils.py:25-31): digit group `"3"` wraps every occurrence of the
content in `[b]...[/b]`, digit group `"1"` in `[yellow]...[/yellow]`,
any other digit group leaves the text unchanged. -/
def applyMatch (acc : List Char) (m : List Char × List Char) : List Char :=
  if m.1 = ['3'] then
    replaceAll acc m.2 ("[b]".toList ++ m.2 ++ "[/b]".toList)
  else if m.1 = ['1'] then
    replaceAll acc m.2 ("[yellow]".toList ++ m.2 ++ "[/yellow]".toList)
  else acc

/-- `hdml_to_md` (utils.py:6-35): find all `<i=N>...</i>` matches, apply
the replacement loop to the text, then strip all remaining `i`-tags. -/
def hdml_to_md (text : List Char) : List Char :=
  stripITags ((findIMatches text).foldl applyMatch text)

/-! ## Helper lemmas -/

lemma parseValueType_eq_planet_iff (t : Int) :
    parseValueType t = .PLANET_INDEX ↔ t = 12 := by
  unfold parseValueType
  split_ifs <;> simp_all

lemma foldl_set_eq_getLast (l : List Int) :
    ∀ init : Option Int,
      l.foldl (fun _ v => some v) init =
        match l.getLast? with
        | some v => some v
        | none => init := by
  induction l with
  | nil => intro init; rfl
  | cons v l ih =>
      intro init
      rw [List.foldl_cons, ih (some v)]
      cases l with
      | nil => rfl
      | cons a l' =>
          rw [List.getLast?_cons_cons]
          cases h : (a :: l').getLast? with
          | none => simp at h
          | some w => rfl

lemma foldl_taskStep_race (pairs : List (Int × Int)) :
    ∀ acc : TaskAcc,
      (pairs.foldl (fun a vt => taskStep a vt.1 vt.2) acc).race =
        (tagOccurrences .RACE pairs).foldl (fun _ v => some v) acc.race := by
  induction pairs with
  | nil => intro acc; rfl
  | cons vt rest ih =>
      intro acc
      rw [List.foldl_cons, ih (taskStep acc vt.1 vt.2)]
      cases h : parseValueType vt.2 <;>
        simp [taskStep, tagOccurrences, List.filterMap_cons, h]

lemma foldl_taskStep_unknown (pairs : List (Int × Int)) :
    ∀ acc : TaskAcc,
      (pairs.foldl (fun a vt => taskStep a vt.1 vt.2) acc).unknown =
        (tagOccurrences .UNKNOWN pairs).foldl (fun _ v => some v) acc.unknown := by
  induction pairs with
  | nil => intro acc; rfl
  | cons vt rest ih =>
      intro acc
      rw [List.foldl_cons, ih (taskStep acc vt.1 vt.2)]
      cases h : parseValueType vt.2 <;>
        simp [taskStep, tagOccurrences, List.filterMap_cons, h]

lemma foldl_taskStep_goal (pairs : List (Int × Int)) :
    ∀ acc : TaskAcc,
      (pairs.foldl (fun a vt => taskStep a vt.1 vt.2) acc).goal =
        (tagOccurrences .GOAL pairs).foldl (fun _ v => some v) acc.goal := by
  induction pairs with
  | nil => intro acc; rfl
  | cons vt rest ih =>
      intro acc
      rw [List.foldl_cons, ih (taskStep acc vt.1 vt.2)]
      cases h : parseValueType vt.2 <;>
        simp [taskStep, tagOccurrences, List.filterMap_cons, h]

lemma foldl_taskStep_liberate (pairs : List (Int × Int)) :
    ∀ acc : TaskAcc,
      (pairs.foldl (fun a vt => taskStep a vt.1 vt.2) acc).liberate =
        (tagOccurrences .LIBERATE pairs).foldl (fun _ v => some v) acc.liberate := by
  induction pairs with
  | nil => intro acc; rfl
  | cons vt rest ih =>
      intro acc
      rw [List.foldl_cons, ih (taskStep acc vt.1 vt.2)]
      cases h : parseValueType vt.2 <;>
        simp [taskStep, tagOccurrences, List.filterMap_cons, h]

lemma foldl_taskStep_planet (pairs : List (Int × Int)) :
    ∀ acc : TaskAcc,
      (pairs.foldl (fun a vt => taskStep a vt.1 vt.2) acc).planet =
        if tagOccurrences .PLANET_INDEX pairs = [] then acc.planet
        else some (acc.planet.getD [] ++ tagOccurrences .PLANET_INDEX pairs) := by
  induction pairs with
  | nil => intro acc; simp [tagOccurrences]
  | cons vt rest ih =>
      intro acc
      rw [List.foldl_cons, ih (taskStep acc vt.1 vt.2)]
      cases h : parseValueType vt.2 <;>
        simp only [taskStep, tagOccurrences, List.filterMap_cons, h] <;>
        simp [h]

lemma projectLoop_eq_foldl :
    ∀ (values types : List Int) (acc : TaskAcc),
      values.length ≤ types.length →
      projectLoop values types acc =
        .ok ((values.zip types).foldl (fun a vt => taskStep a vt.1 vt.2) acc) := by
  intro values
  induction values with
  | nil => intro types acc _; rfl
  | cons v vs ih =>
      intro types acc hlen
      cases types with
      | nil => simp at hlen
      | cons t ts =>
          simp only [List.length_cons, Nat.add_le_add_iff_right] at hlen
          simpa [projectLoop, List.zip_cons_cons] using ih ts (taskStep acc v t) hlen

lemma projectLoop_error :
    ∀ (types values : List Int) (acc : TaskAcc),
      types.length < values.length →
      projectLoop values types acc = .error .indexError := by
  intro types
  induction types with
  | nil =>
      intro values acc hlen
      cases values with
      | nil => simp at hlen
      | cons v vs => rfl
  | cons t ts ih =>
      intro values acc hlen
      cases values with
      | nil => simp at hlen
      | cons v vs =>
          simp only [List.length_cons, Nat.add_lt_add_iff_right] at hlen
          simpa [projectLoop] using ih vs (taskStep acc v t) hlen

lemma zip_take_self :
    ∀ {α β : Type} (l1 : List α) (l2 : List β),
      l1.zip (l2.take l1.length) = l1.zip l2 := by
  intro α β l1
  induction l1 with
  | nil => intro l2; rfl
  | cons a l1 ih =>
      intro l2
      cases l2 with
      | nil => rfl
      | cons b l2 => simp [List.zip_cons_cons, ih]

lemma planetOccurrences_ne_nil :
    ∀ (types values : List Int),
      values.length = types.length → (12 : Int) ∈ types →
      planetOccurrences values types ≠ [] := by
  intro types
  induction types with
  | nil => intro values _ hmem; simp at hmem
  | cons t ts ih =>
      intro values hlen hmem
      cases values with
      | nil => simp at hlen
      | cons v vs =>
          simp only [List.length_cons, Nat.add_right_cancel_iff] at hlen
          rcases List.mem_cons.mp hmem with h12 | h12
          · subst h12
            simp [planetOccurrences, tagOccurrences, List.filterMap_cons, parseValueType]
          · have := ih vs hlen h12
            simp only [planetOccurrences, tagOccurrences, List.zip_cons_cons,
              List.filterMap_cons] at this ⊢
            cases hpt : parseValueType t <;> simp [hpt, this]

lemma projectTaskValues_spec (values types : List Int)
    (hlen : values.length ≤ types.length)
    (hne : planetOccurrences values types ≠ []) :
    projectTaskValues values types =
      .ok { race := lastOccurrence .RACE values types,
            unknown := lastOccurrence .UNKNOWN values types,
            goal := lastOccurrence .GOAL values types,
            liberate := lastOccurrence .LIBERATE values types,
            planet := match planetOccurrences values types with
              | [x] => Sum.inl x
              | l => Sum.inr l } := by
  unfold projectTaskValues
  rw [projectLoop_eq_foldl values types TaskAcc.empty hlen]
  have hplanet :
      ((values.zip types).foldl (fun a vt => taskStep a vt.1 vt.2) TaskAcc.empty).planet =
        some (planetOccurrences values types) := by
    rw [foldl_taskStep_planet]
    unfold planetOccurrences at hne ⊢
    simp [hne, TaskAcc.empty]
  have hrace :
      ((values.zip types).foldl (fun a vt => taskStep a vt.1 vt.2) TaskAcc.empty).race =
        lastOccurrence .RACE values types := by
    rw [foldl_taskStep_race, foldl_set_eq_getLast]
    cases hx : (tagOccurrences .RACE (values.zip types)).getLast? <;>
      simp [lastOccurrence, hx, TaskAcc.empty]
  have hunknown :
      ((values.zip types).foldl (fun a vt => taskStep a vt.1 vt.2) TaskAcc.empty).unknown =
        lastOccurrence .UNKNOWN values types := by
    rw [foldl_taskStep_unknown, foldl_set_eq_getLast]
    cases hx : (tagOccurrences .UNKNOWN (values.zip types)).getLast? <;>
      simp [lastOccurrence, hx, TaskAcc.empty]
  have hgoal :
      ((values.zip types).foldl (fun a vt => taskStep a vt.1 vt.2) TaskAcc.empty).goal =
        lastOccurrence .GOAL values types := by
    rw [foldl_taskStep_goal, foldl_set_eq_getLast]
    cases hx : (tagOccurrences .GOAL (values.zip types)).getLast? <;>
      simp [lastOccurrence, hx, TaskAcc.empty]
  have hliberate :
      ((values.zip types).foldl (fun a vt => taskStep a vt.1 vt.2) TaskAcc.empty).liberate =
        lastOccurrence .LIBERATE values types := by
    rw [foldl_taskStep_liberate, foldl_set_eq_getLast]
    cases hx : (tagOccurrences .LIBERATE (values.zip types)).getLast? <;>
      simp [lastOccurrence, hx, TaskAcc.empty]
  simp only [finalizeTask, hplanet]
  rw [hrace, hunknown, hgoal, hliberate]
  cases planetOccurrences values types with
  | nil => rfl
  | cons a l => cases l <;> rfl

lemma projectTaskValues_noPlanet (values types : List Int)
    (hlen : values.length ≤ types.length)
    (hocc : planetOccurrences values types = []) :
    projectTaskValues values types = .error .typeErrorLenOfNone := by
  unfold projectTaskValues
  rw [projectLoop_eq_foldl values types TaskAcc.empty hlen]
  have hplanet :
      ((values.zip types).foldl (fun a vt => taskStep a vt.1 vt.2) TaskAcc.empty).planet =
        none := by
    rw [foldl_taskStep_planet]
    unfold planetOccurrences at hocc
    simp [hocc, TaskAcc.empty]
  simp [finalizeTask, hplanet]

lemma buildTasks_error_of_mem :
    ∀ (l : List (Int × List Int × List Int)) (a : Int × List Int × List Int),
      a ∈ l → (∃ e, buildTask a.1 a.2.1 a.2.2 = .error e) →
      ∃ e, buildTasks l = .error e := by
  intro l
  induction l with
  | nil => intro a ha; simp at ha
  | cons b l ih =>
      intro a ha he
      obtain ⟨e, he⟩ := he
      rcases List.mem_cons.mp ha with rfl | hmem
      · exact ⟨e, by simp only [buildTasks, he]; rfl⟩
      · cases hb : buildTask b.1 b.2.1 b.2.2 with
        | error e0 => exact ⟨e0, by simp only [buildTasks, hb]; rfl⟩
        | ok v =>
            obtain ⟨e1, he1⟩ := ih a hmem ⟨e, he⟩
            exact ⟨e1, by simp only [buildTasks, hb, he1]; rfl⟩

lemma planetOccurrences_eq_nil (values types : List Int)
    (h12 : (12 : Int) ∉ types) :
    planetOccurrences values types = [] := by
  unfold planetOccurrences tagOccurrences
  rw [List.filterMap_eq_nil_iff]
  intro vt hvt
  have hmem : vt.2 ∈ types := (List.of_mem_zip hvt).2
  have hne : vt.2 ≠ 12 := fun hc => h12 (hc ▸ hmem)
  simp [parseValueType_eq_planet_iff, hne]

lemma assignment_is_complete_iff (progress : List Int) (n : Nat) :
    assignment_is_complete progress n = true ↔ progress = List.replicate n 1 := by
  simp [assignment_is_complete]

lemma completed_eq_true_iff :
    ∀ (tasks : List (MajorOrderTypes × Option Int)) (progress : List Int),
      tasks.length = progress.length →
      (completed tasks progress = some true ↔
        ∀ (i : Nat) (t : MajorOrderTypes × Option Int) (p : Int),
          tasks[i]? = some t → progress[i]? = some p →
          task_is_complete t.1 t.2 p = true) := by
  intro tasks
  induction tasks with
  | nil =>
      intro progress _
      constructor
      · intro _ i t p ht _
        simp at ht
      · intro _
        rfl
  | cons t ts ih =>
      intro progress hlen
      cases progress with
      | nil => simp at hlen
      | cons p ps =>
          simp only [List.length_cons, Nat.add_right_cancel_iff] at hlen
          unfold completed
          by_cases hc : task_is_complete t.1 t.2 p = true
          · rw [if_pos hc, ih ps hlen]
            constructor
            · intro h i tt pp htt hpp
              cases i with
              | zero =>
                  simp only [List.getElem?_cons_zero, Option.some.injEq] at htt hpp
                  subst htt
                  subst hpp
                  exact hc
              | succ n =>
                  simp only [List.getElem?_cons_succ] at htt hpp
                  exact h n tt pp htt hpp
            · intro h i tt pp htt hpp
              exact h (i + 1) tt pp (by simpa using htt) (by simpa using hpp)
          · rw [if_neg hc]
            constructor
            · intro hfalse
              simp at hfalse
            · intro h
              exact absurd (h 0 t p (by simp) (by simp)) hc

lemma assignment_vs_completed :
    ∀ (tasks : List (MajorOrderTypes × Option Int)) (progress : List Int),
      tasks.length = progress.length →
      (∀ t ∈ tasks, t.1 ≠ .ERADICATE) →
      (assignment_is_complete progress tasks.length = true ↔
        completed tasks progress = some true) := by
  intro tasks
  induction tasks with
  | nil =>
      intro progress hlen _
      cases progress with
      | nil => simp [assignment_is_complete, completed]
      | cons p ps => simp at hlen
  | cons t ts ih =>
      intro progress hlen hner
      cases progress with
      | nil => simp at hlen
      | cons p ps =>
          simp only [List.length_cons, Nat.add_right_cancel_iff] at hlen
          have ht : task_is_complete t.1 t.2 p = (p == 1) := by
            cases htt : t.1 with
            | ERADICATE => exact absurd htt (hner t (List.mem_cons_self t ts))
            | LIBERATION => simp [task_is_complete, htt]
            | DEFENSE => simp [task_is_complete, htt]
            | CONTROL => simp [task_is_complete, htt]
          rw [assignment_is_complete_iff]
          by_cases hp : p = (1 : Int)
          · subst hp
            simp only [completed, ht, List.length_cons, List.replicate_succ,
              List.cons.injEq, true_and]
            simp only [show ((1 : Int) == 1) = true from by decide, if_true]
            rw [← assignment_is_complete_iff ps ts.length]
            exact ih ps hlen fun u hu => hner u (List.mem_cons_of_mem _ hu)
          · have hb : (p == (1 : Int)) = false := by simp [hp]
            simp [completed, ht, hb, List.replicate_succ, hp]

lemma iOpenMatch_none_of_ne (c : Char) (rest : List Char) (h : c ≠ '<') :
    iOpenMatch (c :: rest) = none := by
  unfold iOpenMatch
  split
  · rename_i heq
    simp_all
  · rfl

lemma iTagLen_none_of_ne (c : Char) (rest : List Char) (h : c ≠ '<') :
    iTagLen (c :: rest) = none := by
  unfold iTagLen
  split
  · rename_i heq
    simp_all
  · rename_i heq
    simp_all
  · rfl

lemma as_plaintext_of_no_lt : ∀ s : List Char, '<' ∉ s → as_plaintext s = s := by
  intro s
  induction s with
  | nil => intro _; rw [as_plaintext]
  | cons c rest ih =>
      intro h
      have hc : c ≠ '<' := fun hh => h (hh ▸ List.mem_cons_self c rest)
      have hrest : '<' ∉ rest := fun hh => h (List.mem_cons_of_mem c hh)
      rw [as_plaintext]
      simp [hc, ih hrest]

lemma stripITags_of_no_lt : ∀ s : List Char, '<' ∉ s → stripITags s = s := by
  intro s
  induction s with
  | nil => intro _; rw [stripITags]
  | cons c rest ih =>
      intro h
      have hc : c ≠ '<' := fun hh => h (hh ▸ List.mem_cons_self c rest)
      have hrest : '<' ∉ rest := fun hh => h (List.mem_cons_of_mem c hh)
      rw [stripITags]
      simp [iTagLen_none_of_ne c rest hc, ih hrest]

lemma findIMatches_of_no_lt : ∀ s : List Char, '<' ∉ s → findIMatches s = [] := by
  intro s
  induction s with
  | nil => intro _; rw [findIMatches]
  | cons c rest ih =>
      intro h
      have hc : c ≠ '<' := fun hh => h (hh ▸ List.mem_cons_self c rest)
      have hrest : '<' ∉ rest := fun hh => h (List.mem_cons_of_mem c hh)
      rw [findIMatches]
      simp [iOpenMatch_none_of_ne c rest hc, ih hrest]

lemma hdml_to_md_of_no_lt (s : List Char) (h : '<' ∉ s) : hdml_to_md s = s := by
  unfold hdml_to_md
  rw [findIMatches_of_no_lt s h]
  simpa using stripITags_of_no_lt s h

/-! ## Claim theorems -/

/-- Claim C2: in the task value projection, occurrences of the Planet
tag (code 12) accumulate into a list which collapses to its element when
it has exactly one; `values=[7], valueTypes=[12]` projects the planet
field to the scalar 7 and `values=[7,9], valueTypes=[12,12]` to the list
[7,9]; every other tag is last-write-wins when duplicated. -/
theorem C2_tag_collapsing (values types : List Int)
    (hlen : values.length = types.length) (hmem : (12 : Int) ∈ types) :
    (projectTaskValues values types =
      .ok { race := lastOccurrence .RACE values types,
            unknown := lastOccurrence .UNKNOWN values types,
            goal := lastOccurrence .GOAL values types,
            liberate := lastOccurrence .LIBERATE values types,
            planet := match planetOccurrences values types with
              | [x] => Sum.inl x
              | l => Sum.inr l })
    ∧ projectTaskValues [7] [12] =
        .ok { race := none, unknown := none, goal := none, liberate := none,
              planet := Sum.inl 7 }
    ∧ projectTaskValues [7, 9] [12, 12] =
        .ok { race := none, unknown := none, goal := none, liberate := none,
              planet := Sum.inr [7, 9] } := by
  refine ⟨?_, rfl, rfl⟩
  exact projectTaskValues_spec values types (le_of_eq hlen)
    (planetOccurrences_ne_nil types values hlen hmem)

/-- Witness for C2 at a concrete input: a GOAL tag and a single planet
tag; the planet list collapses to the scalar 7 and the goal is 5. -/
theorem C2_tag_collapsing_witness :
    projectTaskValues [5, 7] [3, 12] =
      .ok { race := none, unknown := none, goal := some 5, liberate := none,
            planet := Sum.inl 7 } := by
  rw [(C2_tag_collapsing [5, 7] [3, 12] rfl (by decide)).1]
  rfl

/-- Counterexample to claim C5: `values=[7]` with `valueTypes=[12,3]`
have different lengths, yet decoding succeeds, silently ignoring the
excess valueTypes entry instead of raising a decoding error. -/
theorem C5_counterexample :
    ([(7 : Int)].length ≠ ([12, 3] : List Int).length) ∧
    projectTaskValues [7] [12, 3] =
      .ok { race := none, unknown := none, goal := none, liberate := none,
            planet := Sum.inl 7 } :=
  ⟨by decide, rfl⟩

/-- Amended claim C5: a `values` array strictly longer than `valueTypes`
raises an IndexError, but when `valueTypes` is the longer array its
excess entries are silently ignored: decoding behaves exactly as if
`valueTypes` were truncated to the length of `values`. -/
theorem C5_length_mismatch :
    (∀ values types : List Int, types.length < values.length →
        projectTaskValues values types = .error .indexError)
    ∧ (∀ values types : List Int, values.length ≤ types.length →
        projectTaskValues values types =
          projectTaskValues values (types.take values.length)) := by
  constructor
  · intro values types hlen
    unfold projectTaskValues
    rw [projectLoop_error types values TaskAcc.empty hlen]
  · intro values types hlen
    unfold projectTaskValues
    rw [projectLoop_eq_foldl values types TaskAcc.empty hlen,
      projectLoop_eq_foldl values (types.take values.length) TaskAcc.empty
        (by simp only [List.length_take]; omega),
      zip_take_self]

/-- Witness for C5 at concrete inputs: a longer values array errors and
a longer valueTypes array is truncated. -/
theorem C5_length_mismatch_witness :
    projectTaskValues [1, 2] [3] = .error .indexError ∧
    projectTaskValues [7] [12, 3] = projectTaskValues [7] [12] :=
  ⟨C5_length_mismatch.1 [1, 2] [3] (by decide),
    C5_length_mismatch.2 [7] [12, 3] (by decide)⟩

/-- Claim C10: a task whose valueTypes contain no Planet tag (code 12)
makes the value projection raise (`len(None)`), and such a task anywhere
in the payload aborts construction of the whole MajorOrder. -/
theorem C10_missing_planet_tag_aborts
    (tasks : List (Int × List Int × List Int))
    (ty : Int) (values types : List Int)
    (hmem : (ty, values, types) ∈ tasks)
    (hlen : values.length = types.length)
    (h12 : (12 : Int) ∉ types) :
    projectTaskValues values types = .error .typeErrorLenOfNone ∧
    ∃ e, buildTasks tasks = .error e := by
  have hproj : projectTaskValues values types = .error .typeErrorLenOfNone :=
    projectTaskValues_noPlanet values types (le_of_eq hlen)
      (planetOccurrences_eq_nil values types h12)
  refine ⟨hproj, ?_⟩
  apply buildTasks_error_of_mem tasks (ty, values, types) hmem
  exact ⟨.typeErrorLenOfNone, by simp only [buildTask, hproj]; rfl⟩

/-- Witness for C10: a pure Eradicate task carrying only a Race tag and
a Goal tag aborts construction. -/
theorem C10_missing_planet_tag_aborts_witness :
    projectTaskValues [2, 100] [1, 3] = .error .typeErrorLenOfNone ∧
    ∃ e, buildTasks [(3, [2, 100], [1, 3])] = .error e :=
  C10_missing_planet_tag_aborts [(3, [2, 100], [1, 3])] 3 [2, 100] [1, 3]
    (by simp) rfl (by decide)

/-- Claim C4: for a task at position i with progress entry progress[i],
Control/Defense/Liberation tasks are complete iff that entry equals 1
exactly, and Eradicate tasks are complete iff the entry equals the GOAL
value, so target 100 with progress 100 is complete and 99 is not. -/
theorem C4_completion_rules (progress : List Int) (i : Nat) (p : Int)
    (ty : MajorOrderTypes) (goal : Option Int)
    (hp : progress[i]? = some p) :
    ((ty = .CONTROL ∨ ty = .DEFENSE ∨ ty = .LIBERATION) →
        (task_is_complete ty goal p = true ↔ p = 1))
    ∧ (ty = .ERADICATE →
        (task_is_complete ty goal p = true ↔ goal = some p))
    ∧ task_is_complete .ERADICATE (some 100) 100 = true
    ∧ task_is_complete .ERADICATE (some 100) 99 = false := by
  refine ⟨?_, ?_, rfl, rfl⟩
  · rintro (rfl | rfl | rfl) <;> simp [task_is_complete]
  · rintro rfl
    cases goal with
    | none => simp [task_is_complete]
    | some g =>
        simp only [task_is_complete, beq_iff_eq, Option.some.injEq]
        exact eq_comm

/-- Witness for C4 at a concrete input: an Eradicate task with goal 100
and progress entry 100 is complete. -/
theorem C4_completion_rules_witness :
    task_is_complete .ERADICATE (some 100) 100 = true :=
  ((C4_completion_rules [100] 0 100 .ERADICATE (some 100) (by simp)).2.1
    rfl).mpr rfl

/-- Counterexample to claim C6: an assignment with a single Eradicate
task (goal 100) and progress [100] has every task complete under its own
type-specific rule (and `MajorOrderProgress.completed` agrees), yet
`Assignment.is_complete` in models.py returns False because it compares
progress against an all-ones list. -/
theorem C6_counterexample :
    task_is_complete .ERADICATE (some 100) 100 = true ∧
    completed [(.ERADICATE, some 100)] [100] = some true ∧
    assignment_is_complete [100] 1 = false :=
  ⟨rfl, rfl, rfl⟩

/-- Amended claim C6: `MajorOrderProgress.completed` is the logical AND
of per-task type-specific completion (with Python short-circuit and
IndexError semantics), while `Assignment.is_complete` (models.py)
instead tests `progress == [1] * len(tasks)`; whenever no task has type
Eradicate (and lengths match) the two agree, while for an Eradicate task
they can diverge, as with goal 100 and progress [100]. -/
theorem C6_assignment_completion :
    (∀ (tasks : List (MajorOrderTypes × Option Int)) (progress : List Int),
        tasks.length = progress.length →
        (completed tasks progress = some true ↔
          ∀ (i : Nat) (t : MajorOrderTypes × Option Int) (p : Int),
            tasks[i]? = some t → progress[i]? = some p →
            task_is_complete t.1 t.2 p = true))
    ∧ (∀ (tasks : List (MajorOrderTypes × Option Int)) (progress : List Int),
        tasks.length = progress.length →
        (∀ t ∈ tasks, t.1 ≠ .ERADICATE) →
        (assignment_is_complete progress tasks.length = true ↔
          completed tasks progress = some true))
    ∧ ¬(assignment_is_complete [100]
          [((MajorOrderTypes.ERADICATE : MajorOrderTypes),
            (some 100 : Option Int))].length = true ↔
        completed [(MajorOrderTypes.ERADICATE, some 100)] [100] = some true) :=
  ⟨completed_eq_true_iff, assignment_vs_completed, by decide⟩

/-- Witness for C6 at a concrete input: for a single Control task the
models.py test agrees with the per-task AND. -/
theorem C6_assignment_completion_witness :
    assignment_is_complete [1]
        [((MajorOrderTypes.CONTROL : MajorOrderTypes), (none : Option Int))].length = true ↔
      completed [(MajorOrderTypes.CONTROL, none)] [1] = some true :=
  C6_assignment_completion.2.1 [(MajorOrderTypes.CONTROL, none)] [1] rfl (by decide)

/-- Counterexample to claim C7: two Planet instances carrying the same
identity (id 5) are not equal, and equality is not symmetric (id 4
equals id 5 but not conversely), so Planet equality is not a consistent
equivalence on planet identity. -/
theorem C7_counterexample :
    Planet.eq { id := 5, name := "Mort" } { id := 5, name := "Mort" } = false
    ∧ Planet.eq { id := 4, name := "A" } { id := 5, name := "B" } = true
    ∧ Planet.eq { id := 5, name := "B" } { id := 4, name := "A" } = false :=
  ⟨rfl, rfl, rfl⟩

/-- Amended claim C7: `Planet.__eq__` holds iff the right operand's id
is exactly the left operand's id plus one; the relation is irreflexive
(no instance equals one carrying the same id) and asymmetric. -/
theorem C7_planet_equality (a b : Planet) :
    (Planet.eq a b = true ↔ b.id = a.id + 1)
    ∧ Planet.eq a a = false
    ∧ (Planet.eq a b = true → Planet.eq b a = false) := by
  refine ⟨?_, ?_, ?_⟩
  · simp only [Planet.eq, beq_iff_eq]
    exact eq_comm
  · simp only [Planet.eq, beq_eq_false_iff_ne, ne_eq]
    omega
  · intro h
    simp only [Planet.eq, beq_iff_eq] at h
    simp only [Planet.eq, beq_eq_false_iff_ne, ne_eq]
    omega

/-- Witness for C7 at concrete inputs: id 4 equals id 5, and an instance
never equals another instance with its own id. -/
theorem C7_planet_equality_witness :
    Planet.eq { id := 4, name := "A" } { id := 5, name := "B" } = true
    ∧ Planet.eq { id := 7, name := "C" } { id := 7, name := "C" } = false :=
  ⟨(C7_planet_equality { id := 4, name := "A" } { id := 5, name := "B" }).1.mpr
      (by decide),
    (C7_planet_equality { id := 7, name := "C" } { id := 7, name := "C" }).2.1⟩

/-- Claim C8: faction codes outside {0,1,2,3,4} decode to the explicit
none variant without raising; unrecognised task-value tag codes decode
to the UNKNOWN sentinel; but an unrecognised task type code raises a
hard decoding error. -/
theorem C8_unknown_enum_safety :
    (∀ c : Int, c ≠ 0 → c ≠ 1 → c ≠ 2 → c ≠ 3 → c ≠ 4 →
        Faction.parse c = none)
    ∧ (∀ c : Int, c ≠ 1 → c ≠ 2 → c ≠ 3 → c ≠ 11 → c ≠ 12 →
        parseValueType c = .UNKNOWN)
    ∧ (∀ c : Int, c ≠ 3 → c ≠ 11 → c ≠ 12 → c ≠ 13 →
        MajorOrderTypes.convert c = .error .valueError) := by
  refine ⟨?_, ?_, ?_⟩
  · intro c h0 h1 h2 h3 h4
    simp [Faction.parse, h0, h1, h2, h3, h4]
  · intro c h1 h2 h3 h11 h12
    simp [parseValueType, h1, h2, h3, h11, h12]
  · intro c h3 h11 h12 h13
    simp [MajorOrderTypes.convert, h3, h11, h12, h13]

/-- Witness for C8 at the concrete code 99, outside every enumeration. -/
theorem C8_unknown_enum_safety_witness :
    Faction.parse 99 = none ∧ parseValueType 99 = .UNKNOWN ∧
    MajorOrderTypes.convert 99 = .error .valueError :=
  ⟨C8_unknown_enum_safety.1 99 (by decide) (by decide) (by decide) (by decide)
      (by decide),
    C8_unknown_enum_safety.2.1 99 (by decide) (by decide) (by decide) (by decide)
      (by decide),
    C8_unknown_enum_safety.2.2 99 (by decide) (by decide) (by decide) (by decide)⟩

/-- Claim C9: both markup conversions are the identity on tag-free
input: a string containing no markup tag (no occurrence of the tag
opener) is returned unchanged by hdml_to_md and by as_plaintext. -/
theorem C9_markup_identity (s : List Char) (h : '<' ∉ s) :
    hdml_to_md s = s ∧ as_plaintext s = s :=
  ⟨hdml_to_md_of_no_lt s h, as_plaintext_of_no_lt s h⟩

/-- Witness for C9 on a concrete plain string. -/
theorem C9_markup_identity_witness :
    hdml_to_md ['H', 'i', ' ', 'a', 'l', 'l'] = ['H', 'i', ' ', 'a', 'l', 'l'] ∧
    as_plaintext ['H', 'i', ' ', 'a', 'l', 'l'] = ['H', 'i', ' ', 'a', 'l', 'l'] :=
  C9_markup_identity ['H', 'i', ' ', 'a', 'l', 'l'] (by decide)

/-- Claim C3 (spec-modelled): the game-clock conversion is re-derived
from the live clock on every call: with the clock at t it returns
warStart + t + R; advancing the clock by D between two conversions of
the same offset R shifts the result by exactly D; and a failed status
fetch fails the conversion instead of reusing a stale reading. -/
theorem C3_clock_drift_absence (env : GameClockEnv) (t D R : Int)
    (h : env.gameTime = some t) :
    fix_timestamp env R = some (env.warStartEpoch + t + R)
    ∧ (∀ env' : GameClockEnv, env'.warStartEpoch = env.warStartEpoch →
        env'.gameTime = some (t + D) →
        ∃ a b, fix_timestamp env R = some a ∧ fix_timestamp env' R = some b ∧
          b - a = D)
    ∧ (∀ e : GameClockEnv, e.gameTime = none → fix_timestamp e R = none) := by
  refine ⟨?_, ?_, ?_⟩
  · simp [fix_timestamp, h]
  · intro env' hw hg
    refine ⟨env.warStartEpoch + t + R, env.warStartEpoch + (t + D) + R, ?_, ?_, by ring⟩
    · simp [fix_timestamp, h]
    · simp [fix_timestamp, hg, hw]
  · intro e he
    simp [fix_timestamp, he]

/-- Witness for C3 at concrete inputs: clock 50 then 57 with offset 5
over war start 1000 give 1055 and 1062, and a failed fetch gives none. -/
theorem C3_clock_drift_absence_witness :
    fix_timestamp { warStartEpoch := 1000, gameTime := some 50 } 5 = some 1055
    ∧ fix_timestamp { warStartEpoch := 1000, gameTime := some 57 } 5 = some 1062
    ∧ fix_timestamp { warStartEpoch := 1000, gameTime := none } 5 = none :=
  ⟨(C3_clock_drift_absence { warStartEpoch := 1000, gameTime := some 50 } 50 7 5
      rfl).1,
    (C3_clock_drift_absence { warStartEpoch := 1000, gameTime := some 57 } 57 0 5
      rfl).1,
    (C3_clock_drift_absence { warStartEpoch := 1000, gameTime := some 50 } 50 7 5
      rfl).2.2 { warStartEpoch := 1000, gameTime := none } rfl⟩

/-- Counterexample to claim C1: populate the status slot by a first
access, then call refresh(); the instance's cache is unchanged and the
next access performs zero lookups, returning the stale cached object,
whereas the claim requires refresh() to discard the slots so that the
next access re-fetches. -/
theorem C1_counterexample :
    (refresh (⟨some 1, some 2, some 3⟩ : ResolutionClient Nat Nat Nat)
        (status_access ⟨some 1, some 2, some 3⟩ ⟨none, none, none⟩).2.1).1 =
      (status_access (⟨some 1, some 2, some 3⟩ : ResolutionClient Nat Nat Nat)
        ⟨none, none, none⟩).2.1
    ∧ (status_access (⟨some 1, some 2, some 3⟩ : ResolutionClient Nat Nat Nat)
        (refresh ⟨some 1, some 2, some 3⟩
          (status_access ⟨some 1, some 2, some 3⟩ ⟨none, none, none⟩).2.1).1).2.2 = 0
    ∧ (status_access (⟨some 1, some 2, some 3⟩ : ResolutionClient Nat Nat Nat)
        (refresh ⟨some 1, some 2, some 3⟩
          (status_access ⟨some 1, some 2, some 3⟩ ⟨none, none, none⟩).2.1).1).1 =
        some 2 :=
  ⟨rfl, rfl, rfl⟩

/-- Amended claim C1: each deferred-reference accessor memoizes a
non-None result: once an access returns an object, every later access on
that instance returns the same object with zero further lookups; a
lookup returning None is not memoized and is retried on the next access;
refresh() does not invalidate the instance's slots — it leaves the
instance's cache untouched and returns a freshly fetched instance whose
cache starts empty, so the three accessors each perform a lookup on
their first access to the fresh instance. -/
theorem C1_memoization_refresh :
    (∀ (A B C : Type) (cl : ResolutionClient A B C) (c : PlanetCache A B C),
        (∀ v, (planet_info_access cl c).1 = some v →
          planet_info_access cl (planet_info_access cl c).2.1 =
            (some v, (planet_info_access cl c).2.1, 0))
        ∧ (∀ v, (status_access cl c).1 = some v →
          status_access cl (status_access cl c).2.1 =
            (some v, (status_access cl c).2.1, 0))
        ∧ (∀ v, (campaign_access cl c).1 = some v →
          campaign_access cl (campaign_access cl c).2.1 =
            (some v, (campaign_access cl c).2.1, 0)))
    ∧ (∀ (A B C : Type) (cl : ResolutionClient A B C) (c : PlanetCache A B C),
        ((planet_info_access cl c).1 = none →
          (planet_info_access cl (planet_info_access cl c).2.1).2.2 = 1)
        ∧ ((status_access cl c).1 = none →
          (status_access cl (status_access cl c).2.1).2.2 = 1)
        ∧ ((campaign_access cl c).1 = none →
          (campaign_access cl (campaign_access cl c).2.1).2.2 = 1))
    ∧ (∀ (A B C : Type) (cl : ResolutionClient A B C) (c : PlanetCache A B C),
        refresh cl c = (c, { planet_info := none, status := none, campaign := none })
        ∧ (planet_info_access cl (refresh cl c).2).2.2 = 1
        ∧ (status_access cl (refresh cl c).2).2.2 = 1
        ∧ (campaign_access cl (refresh cl c).2).2.2 = 1) := by
  refine ⟨?_, ?_, ?_⟩
  · intro A B C cl c
    refine ⟨?_, ?_, ?_⟩
    · intro v hv
      cases hc : c.planet_info with
      | some s =>
          simp only [planet_info_access, hc] at hv ⊢
          cases hv
          rfl
      | none =>
          simp only [planet_info_access, hc] at hv ⊢
          rw [hv]
    · intro v hv
      cases hc : c.status with
      | some s =>
          simp only [status_access, hc] at hv ⊢
          cases hv
          rfl
      | none =>
          simp only [status_access, hc] at hv ⊢
          rw [hv]
    · intro v hv
      cases hc : c.campaign with
      | some s =>
          simp only [campaign_access, hc] at hv ⊢
          cases hv
          rfl
      | none =>
          simp only [campaign_access, hc] at hv ⊢
          rw [hv]
  · intro A B C cl c
    refine ⟨?_, ?_, ?_⟩
    · intro hv
      cases hc : c.planet_info with
      | some s => simp [planet_info_access, hc] at hv
      | none =>
          simp only [planet_info_access, hc] at hv ⊢
          simp [planet_info_access, hv]
    · intro hv
      cases hc : c.status with
      | some s => simp [status_access, hc] at hv
      | none =>
          simp only [status_access, hc] at hv ⊢
          simp [status_access, hv]
    · intro hv
      cases hc : c.campaign with
      | some s => simp [campaign_access, hc] at hv
      | none =>
          simp only [campaign_access, hc] at hv ⊢
          simp [campaign_access, hv]
  · intro A B C cl c
    exact ⟨rfl, rfl, rfl, rfl⟩

/-- Witness for C1 at a concrete input: after a first access fetched and
stored the value 2, the second access returns it with zero lookups. -/
theorem C1_memoization_refresh_witness :
    status_access (⟨some 1, some 2, some 3⟩ : ResolutionClient Nat Nat Nat)
        (status_access ⟨some 1, some 2, some 3⟩ ⟨none, none, none⟩).2.1 =
      (some 2,
        (status_access (⟨some 1, some 2, some 3⟩ : ResolutionClient Nat Nat Nat)
          ⟨none, none, none⟩).2.1, 0) :=
  (C1_memoization_refresh.1 Nat Nat Nat ⟨some 1, some 2, some 3⟩
      ⟨none, none, none⟩).2.1 2 rfl
